import Mathlib

/-!
# Verification of the multi-DSA loan-application review workflow

A shallow embedding, over lists of records, of the core route handlers of the
loan-application repository:

* `PUT /api/applications/[id]/status` — decision submission / status update
  (`src/app/api/applications/[id]/status/route.ts`);
* `POST /api/admin/check-deadlines` — the deadline sweeper
  (`src/app/api/admin/check-deadlines/route.ts`);
* `POST /api/admin/test-assign-dsas` — reviewer (DSA) assignment
  (`src/app/api/admin/test-assign-dsas/route.ts`);
* `POST /api/dsa/reactivation-request` — reactivation requests
  (`src/app/api/dsa/reactivation-request/route.ts`).

MongoDB documents become Lean structures; a database state is a pair of lists
(users, applications); `findById` becomes `List.find?` on the id field; a
mongoose `save`/`findByIdAndUpdate` becomes a `List.map` that rewrites the
documents with the matching id.  Timestamps are `Nat` (milliseconds), status
enumerations stay the literal strings the code compares against.
-/

namespace Loan

/-- A DSA reactivation request, embedded in the user document
(`reactivationRequest` subdocument). -/
structure ReactivationRequest where
  reason : String
  clarification : String
  requestedAt : Nat
  status : String
  reviewedBy : Option String := none
  reviewedAt : Option Nat := none
  adminNotes : Option String := none
  deriving DecidableEq, Repr

/-- A user document (admin / DSA / applicant), with the DSA verification,
activity and statistics fields the core routes read and write. -/
structure User where
  id : String
  role : String
  firstName : String := ""
  lastName : String := ""
  email : String := ""
  isActive : Bool := true
  isVerified : Bool := false
  verifiedAt : Option Nat := none
  verifiedBy : Option String := none
  missedDeadlines : Nat := 0
  totalReviews : Nat := 0
  approvedApplications : Nat := 0
  rejectedApplications : Nat := 0
  lastActivity : Option Nat := none
  reactivationRequest : Option ReactivationRequest := none
  deriving DecidableEq, Repr

/-- One per-DSA review slot in an application's `dsaReviews` array
(created at assignment time with status `"pending"`). -/
structure DSAReview where
  dsaId : String
  status : String
  documentsReviewed : List String := []
  deriving DecidableEq, Repr

/-- A review/audit entry pushed onto an application's `reviews` array by the
status route. -/
structure ReviewEntry where
  dsaId : String
  dsaName : String
  status : String
  comments : String
  reviewNotes : String
  reviewedAt : Nat
  reviewerRole : String
  deriving DecidableEq, Repr

/-- A loan-application document, restricted to the fields the core routes
read and write. -/
structure Application where
  id : String
  applicationNumber : String := ""
  status : String
  assignedDSAs : List String := []
  dsaReviews : List DSAReview := []
  reviews : List ReviewEntry := []
  finalApprovalThreshold : Nat := 0
  reviewDeadline : Option Nat := none
  assignedAt : Option Nat := none
  approvedAt : Option Nat := none
  approvedBy : Option String := none
  rejectedAt : Option Nat := none
  rejectedBy : Option String := none
  rejectionReason : Option String := none
  updatedAt : Nat := 0
  deriving DecidableEq, Repr

/-- The database state the core routes operate on. -/
structure St where
  users : List User
  apps : List Application
  deriving DecidableEq, Repr

/-- The authenticated session (`session.user`) supplied by the identity
provider. -/
structure Session where
  userId : String
  role : String
  firstName : String := ""
  lastName : String := ""
  deriving DecidableEq, Repr

/-- Mongoose `User.findById`. -/
def findUser (users : List User) (i : String) : Option User :=
  users.find? (fun u => u.id = i)

/-- Mongoose `LoanApplication.findById`. -/
def findApp (apps : List Application) (i : String) : Option Application :=
  apps.find? (fun a => a.id = i)

/-- JavaScript `a || b` on two possibly-absent strings (an absent or empty
string is falsy). -/
def jsOr (a b : Option String) : Option String :=
  match a with
  | some s => if s = "" then b else some s
  | none => b

/-- JavaScript `a || d` collapsed to a plain string default
(used for `comments || ''`). -/
def jsOrStr (a : Option String) (d : String) : String :=
  match a with
  | some s => if s = "" then d else s
  | none => d

/-- JavaScript falsiness of a possibly-absent string (`!x`). -/
def isFalsy (a : Option String) : Bool :=
  match a with
  | some s => s == ""
  | none => true

/-! ## `PUT /api/applications/[id]/status` -/

/-- The distinguishable failure responses of the status route. -/
inductive PutError
  | unauthorized
  | forbidden
  | statusRequired
  | invalidStatus
  | accountFrozen
  | notFound
  deriving DecidableEq, Repr

/-- The `validStatuses` array of the status route. -/
def validStatuses : List String :=
  ["pending", "under_review", "approved", "rejected", "requires_documents"]

/-- The `updateData` applied by `findByIdAndUpdate` in the status route:
set `status` and `updatedAt`, push the review entry, and stamp the
approve/reject fields when applicable. -/
def applyStatusUpdate (app : Application) (entry : ReviewEntry) (stv : String)
    (comments reviewNotes : Option String) (userId : String) (now : Nat) :
    Application :=
  let base := { app with
    status := stv
    updatedAt := now
    reviews := app.reviews ++ [entry] }
  if stv = "approved" then
    { base with approvedAt := some now, approvedBy := some userId }
  else if stv = "rejected" then
    { base with
      rejectedAt := some now
      rejectedBy := some userId
      rejectionReason := jsOr comments reviewNotes }
  else base

/-- The `$inc` statistics update applied to a DSA reviewer after a status
update (`totalReviews`, conditional approved/rejected counters,
`lastActivity`). -/
def updateUserStats (u : User) (stv : String) (now : Nat) : User :=
  { u with
    totalReviews := u.totalReviews + 1
    approvedApplications :=
      u.approvedApplications + (if stv = "approved" then 1 else 0)
    rejectedApplications :=
      u.rejectedApplications + (if stv = "rejected" then 1 else 0)
    lastActivity := some now }

/-- The PUT handler of `src/app/api/applications/[id]/status/route.ts`:
session and role checks, status validation, DSA frozen-account check,
application lookup, then an unconditional status update with a pushed review
entry and DSA statistics increments.  Returns the response together with the
updated database state (unchanged on every failure). -/
def putStatus (sessOpt : Option Session) (appId : String)
    (statusOpt comments reviewNotes : Option String) (now : Nat) (st : St) :
    Except PutError (Application × ReviewEntry) × St :=
  match sessOpt with
  | none => (.error .unauthorized, st)
  | some s =>
    if ¬ s.role ∈ ["dsa", "admin"] then (.error .forbidden, st)
    else if isFalsy statusOpt then (.error .statusRequired, st)
    else
      let stv := jsOrStr statusOpt ""
      if ¬ stv ∈ validStatuses then (.error .invalidStatus, st)
      else if s.role == "dsa" &&
          (match findUser st.users s.userId with
           | none => true
           | some u => ! u.isActive) then
        (.error .accountFrozen, st)
      else
        match findApp st.apps appId with
        | none => (.error .notFound, st)
        | some app =>
          let entry : ReviewEntry := {
            dsaId := s.userId
            dsaName := s.firstName ++ " " ++ s.lastName
            status := stv
            comments := jsOrStr comments ""
            reviewNotes := jsOrStr reviewNotes ""
            reviewedAt := now
            reviewerRole := s.role }
          let app' := applyStatusUpdate app entry stv comments reviewNotes s.userId now
          let apps' := st.apps.map (fun a => if a.id = appId then app' else a)
          let users' :=
            if s.role = "dsa" then
              st.users.map (fun u =>
                if u.id = s.userId then updateUserStats u stv now else u)
            else st.users
          (.ok (app', entry), { users := users', apps := apps' })

/-! ## `POST /api/admin/check-deadlines` (the deadline sweeper) -/

/-- Clearing a DSA's verification, as the sweeper does on a missed deadline
(`dsa.isVerified = false; dsa.verifiedAt = undefined; dsa.verifiedBy =
undefined`). -/
def unverifyUser (u : User) : User :=
  { u with isVerified := false, verifiedAt := none, verifiedBy := none }

/-- The per-reviewer body of the sweeper loop: `User.findById(dsaId)`, and if
the DSA is found, verified and active, persist the cleared verification and
report the DSA as unverified. -/
def freezeOne (users : List User) (dsaId : String) : List User × List String :=
  match findUser users dsaId with
  | some dsa =>
    if dsa.isVerified && dsa.isActive then
      (users.map (fun u => if u.id = dsaId then unverifyUser u else u), [dsaId])
    else (users, [])
  | none => (users, [])

/-- The sweeper's loop over a list of DSA ids: apply `freezeOne` to each in
iteration order, threading the user collection and concatenating the
reported ids. -/
def freezeMany (users : List User) : List String → List User × List String
  | [] => (users, [])
  | i :: rest =>
    let p := freezeOne users i
    let q := freezeMany p.1 rest
    (q.1, p.2 ++ q.2)

/-- The sweeper's iteration over an application's pending reviews
(`pendingReviews = dsaReviews.filter(status === "pending")`, then the loop
over each `review.dsaId`). -/
def freezePending (users : List User) (reviews : List DSAReview) :
    List User × List String :=
  freezeMany users
    ((reviews.filter (fun r => r.status == "pending")).map (fun r => r.dsaId))

/-- Whether `freezeOne` would act on id `i` in `users`: the DSA document is
found and is both verified and active. -/
def freezable (users : List User) (i : String) : Bool :=
  match findUser users i with
  | some u => u.isVerified && u.isActive
  | none => false

/-- The sweeper's selection query: `status = "under_review"`,
`reviewDeadline < now`, and at least one `dsaReviews` entry still pending
(a document with no `reviewDeadline` does not match `$lt`). -/
def isExpired (now : Nat) (app : Application) : Bool :=
  (match app.reviewDeadline with
   | some d => decide (d < now)
   | none => false)
  && app.status == "under_review"
  && app.dsaReviews.any (fun r => r.status == "pending")

/-- Processing of a single selected application: unverify its pending
reviewers, then reset the application to `pending` when every review is still
pending.  Returns the updated users, the updated application, the reported
DSA ids, and whether the application was reset. -/
def processApp (now : Nat) (users : List User) (app : Application) :
    List User × Application × List String × Bool :=
  if isExpired now app then
    let p := freezePending users app.dsaReviews
    if app.dsaReviews.all (fun r => r.status == "pending") then
      (p.1, { app with status := "pending" }, p.2, true)
    else (p.1, app, p.2, false)
  else (users, app, [], false)

/-- The sweeper's loop over the application collection (each application's
match against the selection query depends only on its own pre-sweep fields,
so iterating the whole collection and testing the query per application is
the `find`-then-iterate of the source). -/
def sweepApps (now : Nat) :
    List User → List Application →
    List User × List Application × List String × List String
  | users, [] => (users, [], [], [])
  | users, app :: rest =>
    let p := processApp now users app
    let q := sweepApps now p.1 rest
    (q.1, p.2.1 :: q.2.1, p.2.2.1 ++ q.2.2.1,
      (if p.2.2.2 then [app.id] else []) ++ q.2.2.2)

/-- The POST handler of `src/app/api/admin/check-deadlines/route.ts`
(admin authorization stripped to the core): returns the updated state, the
`unverifiedDSAs` report and the `processedApplications` (reset) report. -/
def sweep (now : Nat) (st : St) : St × List String × List String :=
  let r := sweepApps now st.users st.apps
  ({ users := r.1, apps := r.2.1 }, r.2.2.1, r.2.2.2)

/-- The application-level effect of one sweep on a single application
(the sweeper mutates an application only by resetting an all-pending expired
application to `pending`). -/
def appStep (now : Nat) (app : Application) : Application :=
  if isExpired now app && app.dsaReviews.all (fun r => r.status == "pending")
  then { app with status := "pending" }
  else app

/-! ## `POST /api/admin/test-assign-dsas` (the assignment engine) -/

/-- The failure of the assignment route (`No active DSAs found`, HTTP 400). -/
inductive AssignError
  | noActiveDsas
  deriving DecidableEq, Repr

/-- The assignment route's reviewer pool query:
`role = "dsa"`, `isActive`, `isVerified`. -/
def activeVerifiedDsas (users : List User) : List User :=
  users.filter (fun u => u.role == "dsa" && u.isActive && u.isVerified)

/-- The assignment route's application query: status `pending` and
`assignedDSAs` absent or empty. -/
def isPendingUnassigned (app : Application) : Bool :=
  app.status == "pending" && app.assignedDSAs.isEmpty

/-- The pool-size draw `Math.min(Math.floor(Math.random() * 2) + 2,
dsas.length)`, with the random draw `Math.floor(Math.random() * 2) ∈ {0, 1}` passed in as `r`. -/
def numDSAsToAssign (r : Nat) (poolLen : Nat) : Nat :=
  min (r + 2) poolLen

/-- Milliseconds per hour (JavaScript `Date` arithmetic). -/
def msPerHour : Nat := 3600000

/-- Assignment of one pending application: take the first
`numDSAsToAssign` reviewers of the shuffled pool `perm`, set the approval
threshold to `min 2 selectedCount`, move to `under_review`, stamp
`assignedAt`, set the 72-hour `reviewDeadline`, and initialize one pending
`dsaReviews` slot per selected reviewer in selection order. -/
def assignApplication (pool perm : List User) (r : Nat) (now : Nat)
    (app : Application) : Application :=
  let selected := (perm.take (numDSAsToAssign r pool.length)).map (fun u => u.id)
  { app with
    assignedDSAs := selected
    finalApprovalThreshold := min 2 selected.length
    status := "under_review"
    assignedAt := some now
    reviewDeadline := some (now + 72 * msPerHour)
    dsaReviews := selected.map (fun d =>
      { dsaId := d, status := "pending", documentsReviewed := [] }) }

/-- The POST handler of `src/app/api/admin/test-assign-dsas/route.ts`
(admin authorization stripped to the core): fail when the active+verified
pool is empty, otherwise assign every pending unassigned application.
`perm` stands for the route's `sort(() => 0.5 - Math.random())` shuffle of
the pool and `r` for its per-application random draw; theorems quantify over
them under the hypothesis that `perm` is a permutation of the pool. -/
def assignDsasRoute (perm : List User) (r : Nat) (now : Nat) (st : St) :
    Except AssignError (List Application) × St :=
  let dsas := activeVerifiedDsas st.users
  if dsas.length = 0 then (.error .noActiveDsas, st)
  else
    let apps' := st.apps.map (fun app =>
      if isPendingUnassigned app then assignApplication dsas perm r now app
      else app)
    (.ok apps', { st with apps := apps' })

/-! ## `POST /api/dsa/reactivation-request` -/

/-- The distinguishable failure responses of the reactivation-request
route. -/
inductive ReactError
  | unauthorized
  | fieldsRequired
  | tooShort
  | dsaNotFound
  | alreadyActive
  | duplicatePending
  deriving DecidableEq, Repr

/-- The POST handler of `src/app/api/dsa/reactivation-request/route.ts`:
session/role check, presence and minimum-length validation of `reason`
(10) and `clarification` (20), DSA lookup, already-active and
duplicate-pending checks, then creation of a pending reactivation request.
Returns the response and the updated user collection (unchanged on every
failure). -/
def reactivationRequestRoute (sessOpt : Option Session)
    (reason clarification : Option String) (now : Nat) (users : List User) :
    Except ReactError User × List User :=
  match sessOpt with
  | none => (.error .unauthorized, users)
  | some s =>
    if ¬ s.role = "dsa" then (.error .unauthorized, users)
    else if isFalsy reason || isFalsy clarification then
      (.error .fieldsRequired, users)
    else
      let rsn := reason.getD ""
      let clar := clarification.getD ""
      if rsn.length < 10 ∨ clar.length < 20 then (.error .tooShort, users)
      else
        match findUser users s.userId with
        | none => (.error .dsaNotFound, users)
        | some dsa =>
          if ¬ dsa.role = "dsa" then (.error .dsaNotFound, users)
          else if dsa.isActive then (.error .alreadyActive, users)
          else if (match dsa.reactivationRequest with
                   | some rq => rq.status == "pending"
                   | none => false) then
            (.error .duplicatePending, users)
          else
            let dsa' := { dsa with reactivationRequest := some {
              reason := rsn.trim
              clarification := clar.trim
              requestedAt := now
              status := "pending" } }
            (.ok dsa',
              users.map (fun u => if u.id = dsa.id then dsa' else u))

/-! ## Specification predicates (statements of claimed properties) -/

/-- The claimed postconditions of a successful assignment of one
application: threshold `min 2 selectedCount` (hence between 1 and the number
of assigned reviewers), deadline 72 hours after assignment, one pending
decision slot per assigned reviewer in selection order, and status
`under_review`. -/
def assignedOk (now : Nat) (ap : Application) : Prop :=
  ap.status = "under_review" ∧
  ap.finalApprovalThreshold = min 2 ap.assignedDSAs.length ∧
  1 ≤ ap.finalApprovalThreshold ∧
  ap.finalApprovalThreshold ≤ ap.assignedDSAs.length ∧
  ap.reviewDeadline = some (now + 72 * msPerHour) ∧
  ap.assignedAt = some now ∧
  ap.dsaReviews = ap.assignedDSAs.map
    (fun d => { dsaId := d, status := "pending", documentsReviewed := [] })

/-- The exact condition under which the status route succeeds: an
authenticated DSA or admin session, a present and valid status value, an
existing active account when the caller is a DSA, and an existing
application — and nothing about the application's own status, reviewers,
threshold or deadline. -/
def putSucceeds (sessOpt : Option Session) (appId : String)
    (statusOpt : Option String) (st : St) : Prop :=
  ∃ s, sessOpt = some s ∧ s.role ∈ ["dsa", "admin"] ∧
    isFalsy statusOpt = false ∧ jsOrStr statusOpt "" ∈ validStatuses ∧
    (s.role = "dsa" →
      ∃ u, findUser st.users s.userId = some u ∧ u.isActive = true) ∧
    ∃ app, findApp st.apps appId = some app

/-- The claimed behaviour of the reactivation-request route for a DSA
session, clause by clause in the route's checking order: length validation
(no mutation on failure), `AlreadyActive`, `DuplicatePending`, and the
success case creating a pending request. -/
def reactRequestSpec (s : Session) (rsn clar : String) (now : Nat)
    (users : List User) : Prop :=
  let res := reactivationRequestRoute (some s) (some rsn) (some clar) now users
  ((rsn.length < 10 ∨ clar.length < 20) →
      res.2 = users ∧
      (res.1 = .error .fieldsRequired ∨ res.1 = .error .tooShort)) ∧
  (∀ dsa, ¬ (rsn.length < 10 ∨ clar.length < 20) →
    findUser users s.userId = some dsa → dsa.role = "dsa" →
    (dsa.isActive = true → res = (.error .alreadyActive, users)) ∧
    (dsa.isActive = false →
      (∀ rq, dsa.reactivationRequest = some rq → rq.status = "pending" →
          res = (.error .duplicatePending, users)) ∧
      ((match dsa.reactivationRequest with
        | some rq => rq.status ≠ "pending"
        | none => True) →
        ∃ dsa', res.1 = .ok dsa' ∧
          dsa'.reactivationRequest = some {
            reason := rsn.trim
            clarification := clar.trim
            requestedAt := now
            status := "pending" } ∧
          res.2 = users.map (fun u => if u.id = dsa.id then dsa' else u))))

/-! ## Concrete fixtures -/

/-- An active, verified DSA reviewer who has already missed two deadlines. -/
def dsaA : User :=
  { id := "d1"
    role := "dsa"
    firstName := "A"
    lastName := "B"
    isActive := true
    isVerified := true
    missedDeadlines := 2 }

/-- A second active, verified DSA reviewer. -/
def dsaB : User := { id := "d2", role := "dsa", isActive := true, isVerified := true }

/-- A third active, verified DSA reviewer. -/
def dsaC : User := { id := "d3", role := "dsa", isActive := true, isVerified := true }

/-- The session of reviewer `d1`. -/
def sessA : Session := { userId := "d1", role := "dsa", firstName := "A", lastName := "B" }

/-- An application under review by three reviewers, approval threshold 2,
all three decision slots still pending, deadline at time 1000000. -/
def appUR : Application :=
  { id := "a1"
    status := "under_review"
    assignedDSAs := ["d1", "d2", "d3"]
    dsaReviews := [⟨"d1", "pending", []⟩, ⟨"d2", "pending", []⟩, ⟨"d3", "pending", []⟩]
    finalApprovalThreshold := 2
    reviewDeadline := some 1000000 }

/-- State: three active reviewers, one application under review. -/
def stUR : St := { users := [dsaA, dsaB, dsaC], apps := [appUR] }

/-- An application under review by `d1` alone, decision pending, deadline at
time 100 (expired at any `now > 100`). -/
def appExp : Application :=
  { id := "a2"
    status := "under_review"
    assignedDSAs := ["d1"]
    dsaReviews := [⟨"d1", "pending", []⟩]
    finalApprovalThreshold := 1
    reviewDeadline := some 100 }

/-- State: two active reviewers, one expired application pending on `d1`. -/
def stExp : St := { users := [dsaA, dsaB], apps := [appExp] }

/-- A freshly created, unassigned pending application. -/
def appPend : Application := { id := "a3", status := "pending" }

/-- State: exactly one active, verified reviewer system-wide and one pending
unassigned application. -/
def stOne : St := { users := [dsaA], apps := [appPend] }

/-! ## Theorems -/

/-- Claim C1 (code_bug): on an application with `approvalThreshold = 2` and
all three decision slots pending, a single reviewer's `approved` submission
already transitions the status to `approved`: at the moment of transition the
`dsaReviews` decisions hold 0 approvals and the pushed `reviews` audit list
holds 1, both below the threshold of 2.  The status route never consults
`finalApprovalThreshold`. -/
theorem approve_below_threshold_bug :
    (putStatus (some sessA) "a1" (some "approved") none none 500 stUR).1.toOption.map
      (fun p => (p.1.status, p.1.finalApprovalThreshold,
        (p.1.dsaReviews.filter (fun r => r.status == "approved")).length,
        (p.1.reviews.filter (fun r => r.status == "approved")).length))
    = some ("approved", 2, 0, 1) := by rfl

/-- Claim C5 (code_bug): a decision submitted at time 2000000 on an
application whose `reviewDeadline` is 1000000 is accepted and mutates the
application — the status route performs no deadline check. -/
theorem late_submission_accepted_bug :
    appUR.reviewDeadline = some 1000000 ∧ (1000000 : Nat) < 2000000 ∧
    ((putStatus (some sessA) "a1" (some "approved") none none 2000000 stUR).1.toOption.map
        (fun p => p.1.status) = some "approved") ∧
    ((findApp (putStatus (some sessA) "a1" (some "approved") none none 2000000 stUR).2.apps
        "a1").map (fun a => a.status) = some "approved") :=
  ⟨by rfl, by norm_num, by rfl, by rfl⟩

/-- Claim C6 (code_bug): the same reviewer submitting twice on the same
application succeeds both times; after the second call the application's
`reviews` list carries two entries by that reviewer — the status route has no
`AlreadyReviewed` check. -/
theorem double_review_accepted_bug :
    (let r1 := putStatus (some sessA) "a1" (some "approved") none none 500 stUR
     let r2 := putStatus (some sessA) "a1" (some "approved") none none 600 r1.2
     (r1.1.toOption.isSome,
      r2.1.toOption.map
        (fun p => ((p.1.reviews.filter (fun r => r.dsaId == "d1")).length, p.1.status))))
    = (true, some (2, "approved")) := by rfl

/-- Claim C2 (counterexample): sweeping the expired application pending on
the active, verified reviewer `d1` (who already has `missedDeadlines = 2`)
leaves `d1` with `isActive = true` and `missedDeadlines = 2` — not
`active = false` and count 3 as the claim states; only `isVerified` is
cleared. -/
theorem sweep_keeps_active_counterexample :
    dsaA.isActive = true ∧ dsaA.isVerified = true ∧ dsaA.missedDeadlines = 2 ∧
    (findUser (sweep 200 stExp).1.users "d1").map
      (fun u => (u.isActive, u.isVerified, u.missedDeadlines))
    = some (true, false, 2) :=
  ⟨by rfl, by rfl, by rfl, by rfl⟩

/-- Claim C7 (counterexample): resetting the fully-pending expired
application leaves `assignedDSAs`, `dsaReviews` and `reviewDeadline` in
place — only the status changes to `pending`, nothing is cleared. -/
theorem sweep_reset_keeps_fields_counterexample :
    (findApp (sweep 200 stExp).1.apps "a2").map
      (fun a => (a.status, a.assignedDSAs, a.dsaReviews, a.reviewDeadline))
    = some ("pending", ["d1"], [⟨"d1", "pending", []⟩], some 100) := by rfl

/-- Claim C3 (counterexample): with exactly one active, verified reviewer
system-wide, the assignment route succeeds — it does not fail with
`InsufficientReviewers` — and the pending application becomes `under_review`
with that single reviewer assigned and threshold 1. -/
theorem assign_single_reviewer_succeeds_counterexample :
    (activeVerifiedDsas stOne.users).length = 1 ∧
    ((assignDsasRoute (activeVerifiedDsas stOne.users) 0 1000 stOne).1.toOption.map
      (fun aps => aps.map (fun a => (a.status, a.assignedDSAs, a.finalApprovalThreshold))))
    = some [("under_review", ["d1"], 1)] :=
  ⟨by rfl, by rfl⟩

/-! ## Supporting lemmas: `freezeOne` -/

theorem findUser_some_id {users : List User} {i : String} {u : User}
    (h : findUser users i = some u) : u.id = i := by
  have := List.find?_some h
  simpa using this

theorem findUser_map_of_id (g : User → User) (hg : ∀ u, (g u).id = u.id)
    (l : List User) (i : String) :
    findUser (List.map g l) i = Option.map g (findUser l i) := by
  induction l with
  | nil => rfl
  | cons a l ih =>
    by_cases h : a.id = i
    · rw [List.map_cons, findUser, List.find?_cons_of_pos, findUser,
        List.find?_cons_of_pos]
      · rfl
      · simpa using h
      · simpa [hg a] using h
    · rw [List.map_cons, findUser, List.find?_cons_of_neg, findUser,
        List.find?_cons_of_neg]
      · exact ih
      · simpa using h
      · simpa [hg a] using h

theorem unverify_update_id (i : String) (u : User) :
    ((fun u : User => if u.id = i then unverifyUser u else u) u).id = u.id := by
  by_cases h : u.id = i <;> simp [h, unverifyUser]

theorem freezeOne_of_not_freezable (users : List User) (i : String)
    (h : freezable users i = false) : freezeOne users i = (users, []) := by
  unfold freezable at h
  unfold freezeOne
  cases hf : findUser users i with
  | none => simp
  | some dsa =>
    rw [hf] at h
    have h' : (dsa.isVerified && dsa.isActive) = false := h
    simp [h']

theorem freezeOne_of_freezable (users : List User) (i : String)
    (h : freezable users i = true) :
    freezeOne users i =
      (users.map (fun u => if u.id = i then unverifyUser u else u), [i]) := by
  unfold freezable at h
  unfold freezeOne
  cases hf : findUser users i with
  | none => rw [hf] at h; exact absurd h (by simp)
  | some dsa =>
    rw [hf] at h
    have h' : (dsa.isVerified && dsa.isActive) = true := h
    simp [h']

theorem freezable_freezeOne_mono (users : List User) (i j : String)
    (h : freezable (freezeOne users i).1 j = true) : freezable users j = true := by
  by_cases hi : freezable users i = true
  · rw [freezeOne_of_freezable users i hi] at h
    unfold freezable at h ⊢
    rw [findUser_map_of_id _ (unverify_update_id i)] at h
    cases hj : findUser users j with
    | none => rw [hj] at h; simp at h
    | some u =>
      rw [hj] at h
      by_cases hu : u.id = i
      · simp [hu, unverifyUser] at h
      · simpa [hu] using h
  · rw [freezeOne_of_not_freezable users i (by simpa using hi)] at h
    exact h

theorem freezable_freezeOne_self (users : List User) (i : String) :
    freezable (freezeOne users i).1 i = false := by
  by_cases h : freezable users i = true
  · rw [freezeOne_of_freezable users i h]
    have hf : ∃ dsa, findUser users i = some dsa := by
      unfold freezable at h
      cases hf : findUser users i with
      | none => rw [hf] at h; exact absurd h (by simp)
      | some dsa => exact ⟨dsa, rfl⟩
    obtain ⟨dsa, hf⟩ := hf
    unfold freezable
    rw [findUser_map_of_id _ (unverify_update_id i), hf]
    simp [findUser_some_id hf, unverifyUser]
  · rw [freezeOne_of_not_freezable users i (by simpa using h)]
    simpa using h

theorem freezeOne_record_or_survive (users : List User) (i j : String)
    (h : freezable users j = true) :
    j ∈ (freezeOne users i).2 ∨ freezable (freezeOne users i).1 j = true := by
  by_cases hi : freezable users i = true
  · rw [freezeOne_of_freezable users i hi]
    by_cases hij : j = i
    · left; simp [hij]
    · right
      unfold freezable at h ⊢
      rw [findUser_map_of_id _ (unverify_update_id i)]
      cases hj : findUser users j with
      | none => rw [hj] at h; exact absurd h (by simp)
      | some u =>
        rw [hj] at h
        have : u.id ≠ i := by rw [findUser_some_id hj]; exact hij
        simpa [this] using h
  · rw [freezeOne_of_not_freezable users i (by simpa using hi)]
    exact Or.inr h

theorem findUser_freezeOne (users : List User) (i j : String) (u : User)
    (h : findUser users j = some u) :
    findUser (freezeOne users i).1 j = some u ∨
    findUser (freezeOne users i).1 j = some (unverifyUser u) := by
  by_cases hi : freezable users i = true
  · rw [freezeOne_of_freezable users i hi]
    rw [findUser_map_of_id _ (unverify_update_id i), h]
    by_cases hu : u.id = i
    · right; simp [hu]
    · left; simp [hu]
  · rw [freezeOne_of_not_freezable users i (by simpa using hi)]
    exact Or.inl h

/-! ## Supporting lemmas: `freezeMany` -/

theorem unverifyUser_idem (u : User) :
    unverifyUser (unverifyUser u) = unverifyUser u := rfl

theorem freezeMany_of_none (users : List User) (ids : List String)
    (h : ∀ i ∈ ids, freezable users i = false) :
    freezeMany users ids = (users, []) := by
  induction ids with
  | nil => rfl
  | cons i rest ih =>
    have h1 := freezeOne_of_not_freezable users i (h i (by simp))
    have h2 : freezeMany users rest = (users, []) :=
      ih (fun j hj => h j (by simp [hj]))
    simp [freezeMany, h1, h2]

theorem freezable_freezeMany_mono (users : List User) (ids : List String)
    (j : String)
    (h : freezable (freezeMany users ids).1 j = true) :
    freezable users j = true := by
  induction ids generalizing users with
  | nil => exact h
  | cons i rest ih =>
    simp only [freezeMany] at h
    exact freezable_freezeOne_mono users i j (ih _ h)

theorem freezable_freezeMany_processed (users : List User) (ids : List String)
    (i : String) :
    i ∈ ids → freezable (freezeMany users ids).1 i = false := by
  induction ids generalizing users with
  | nil => intro hi; simp at hi
  | cons j rest ih =>
    intro hi
    simp only [freezeMany]
    rcases List.mem_cons.mp hi with h | h
    · subst h
      by_cases hf :
          freezable (freezeMany (freezeOne users i).1 rest).1 i = true
      · have h2 := freezable_freezeMany_mono _ rest i hf
        rw [freezable_freezeOne_self users i] at h2
        exact absurd h2 (by simp)
      · simpa using hf
    · exact ih _ h

theorem freezeMany_record_or_survive (users : List User) (ids : List String)
    (j : String) (h : freezable users j = true) :
    j ∈ (freezeMany users ids).2 ∨
    freezable (freezeMany users ids).1 j = true := by
  induction ids generalizing users with
  | nil => exact Or.inr h
  | cons i rest ih =>
    simp only [freezeMany]
    rcases freezeOne_record_or_survive users i j h with hrec | hsurv
    · left
      simp [List.mem_append, hrec]
    · rcases ih _ hsurv with hrec2 | hsurv2
      · left
        simp [List.mem_append, hrec2]
      · right
        exact hsurv2

theorem freezeMany_records_mem (users : List User) (ids : List String)
    (j : String) :
    j ∈ ids → freezable users j = true → j ∈ (freezeMany users ids).2 := by
  induction ids generalizing users with
  | nil => intro hj _; simp at hj
  | cons i rest ih =>
    intro hj h
    simp only [freezeMany]
    rcases List.mem_cons.mp hj with he | hm
    · subst he
      rw [freezeOne_of_freezable users j h]
      simp
    · rcases freezeOne_record_or_survive users i j h with hrec | hsurv
      · simp [List.mem_append, hrec]
      · have := ih _ hm hsurv
        simp [List.mem_append, this]

theorem findUser_freezeMany (users : List User) (ids : List String)
    (j : String) (u : User) (h : findUser users j = some u) :
    findUser (freezeMany users ids).1 j = some u ∨
    findUser (freezeMany users ids).1 j = some (unverifyUser u) := by
  induction ids generalizing users u with
  | nil => exact Or.inl h
  | cons i rest ih =>
    simp only [freezeMany]
    rcases findUser_freezeOne users i j u h with h1 | h1
    · exact ih _ _ h1
    · rcases ih _ _ h1 with h2 | h2
      · exact Or.inr h2
      · right
        rw [h2, unverifyUser_idem]

/-! ## Supporting lemmas: `processApp` -/

theorem processApp_users (now : Nat) (users : List User) (app : Application) :
    (processApp now users app).1 =
      if isExpired now app then (freezePending users app.dsaReviews).1
      else users := by
  unfold processApp
  by_cases h : isExpired now app <;>
    by_cases h2 : app.dsaReviews.all (fun r => r.status == "pending") <;>
      simp [h, h2]

theorem processApp_app (now : Nat) (users : List User) (app : Application) :
    (processApp now users app).2.1 = appStep now app := by
  unfold processApp appStep
  by_cases h : isExpired now app <;>
    by_cases h2 : app.dsaReviews.all (fun r => r.status == "pending") <;>
      simp [h, h2]

theorem processApp_frozen (now : Nat) (users : List User) (app : Application) :
    (processApp now users app).2.2.1 =
      if isExpired now app then (freezePending users app.dsaReviews).2
      else [] := by
  unfold processApp
  by_cases h : isExpired now app <;>
    by_cases h2 : app.dsaReviews.all (fun r => r.status == "pending") <;>
      simp [h, h2]

theorem freezable_processApp_mono (now : Nat) (users : List User)
    (app : Application) (j : String)
    (h : freezable (processApp now users app).1 j = true) :
    freezable users j = true := by
  rw [processApp_users] at h
  by_cases he : isExpired now app
  · rw [if_pos he] at h
    unfold freezePending at h
    exact freezable_freezeMany_mono _ _ _ h
  · rwa [if_neg he] at h

theorem pending_dsaId_mem (app : Application) (rv : DSAReview)
    (hrv : rv ∈ app.dsaReviews) (hp : rv.status = "pending") :
    rv.dsaId ∈ (app.dsaReviews.filter
      (fun r => r.status == "pending")).map (fun r => r.dsaId) := by
  refine List.mem_map.mpr ⟨rv, ?_, rfl⟩
  refine List.mem_filter.mpr ⟨hrv, by simp [hp]⟩

theorem freezable_processApp_pending (now : Nat) (users : List User)
    (app : Application) (rv : DSAReview)
    (he : isExpired now app = true) (hrv : rv ∈ app.dsaReviews)
    (hp : rv.status = "pending") :
    freezable (processApp now users app).1 rv.dsaId = false := by
  rw [processApp_users, if_pos he]
  unfold freezePending
  exact freezable_freezeMany_processed _ _ _ (pending_dsaId_mem app rv hrv hp)

theorem processApp_records (now : Nat) (users : List User)
    (app : Application) (rv : DSAReview)
    (he : isExpired now app = true) (hrv : rv ∈ app.dsaReviews)
    (hp : rv.status = "pending") (hf : freezable users rv.dsaId = true) :
    rv.dsaId ∈ (processApp now users app).2.2.1 := by
  rw [processApp_frozen, if_pos he]
  unfold freezePending
  exact freezeMany_records_mem _ _ _ (pending_dsaId_mem app rv hrv hp) hf

theorem processApp_record_or_survive (now : Nat) (users : List User)
    (app : Application) (j : String) (hf : freezable users j = true) :
    j ∈ (processApp now users app).2.2.1 ∨
    freezable (processApp now users app).1 j = true := by
  rw [processApp_frozen, processApp_users]
  by_cases he : isExpired now app
  · simp only [if_pos he]
    unfold freezePending
    exact freezeMany_record_or_survive _ _ _ hf
  · simp only [if_neg he]
    exact Or.inr hf

theorem findUser_processApp (now : Nat) (users : List User)
    (app : Application) (j : String) (u : User)
    (h : findUser users j = some u) :
    findUser (processApp now users app).1 j = some u ∨
    findUser (processApp now users app).1 j = some (unverifyUser u) := by
  rw [processApp_users]
  by_cases he : isExpired now app
  · rw [if_pos he]
    unfold freezePending
    exact findUser_freezeMany _ _ _ _ h
  · rw [if_neg he]
    exact Or.inl h

/-! ## Supporting lemmas: `sweepApps` -/

theorem sweepApps_apps (now : Nat) (users : List User)
    (apps : List Application) :
    (sweepApps now users apps).2.1 = apps.map (appStep now) := by
  induction apps generalizing users with
  | nil => rfl
  | cons app rest ih =>
    simp only [sweepApps]
    rw [processApp_app, ih]
    rfl

theorem freezable_sweepApps_mono (now : Nat) (users : List User)
    (apps : List Application) (j : String)
    (h : freezable (sweepApps now users apps).1 j = true) :
    freezable users j = true := by
  induction apps generalizing users with
  | nil => exact h
  | cons app rest ih =>
    simp only [sweepApps] at h
    exact freezable_processApp_mono now users app j (ih _ h)

theorem freezable_sweepApps_post (now : Nat) (ap : Application)
    (rv : DSAReview) (he : isExpired now ap = true)
    (hrv : rv ∈ ap.dsaReviews) (hp : rv.status = "pending") :
    ∀ (users : List User) (apps : List Application), ap ∈ apps →
      freezable (sweepApps now users apps).1 rv.dsaId = false := by
  intro users apps
  induction apps generalizing users with
  | nil => intro hap; simp at hap
  | cons a rest ih =>
    intro hap
    simp only [sweepApps]
    rcases List.mem_cons.mp hap with h1 | h1
    · subst h1
      by_cases hf :
          freezable (sweepApps now (processApp now users ap).1 rest).1
            rv.dsaId = true
      · have h2 := freezable_sweepApps_mono now _ rest rv.dsaId hf
        rw [freezable_processApp_pending now users ap rv he hrv hp] at h2
        exact absurd h2 (by simp)
      · simpa using hf
    · exact ih _ h1

theorem sweepApps_records (now : Nat) (ap : Application) (rv : DSAReview)
    (he : isExpired now ap = true) (hrv : rv ∈ ap.dsaReviews)
    (hp : rv.status = "pending") :
    ∀ (users : List User) (apps : List Application), ap ∈ apps →
      freezable users rv.dsaId = true →
      rv.dsaId ∈ (sweepApps now users apps).2.2.1 := by
  intro users apps
  induction apps generalizing users with
  | nil => intro hap _; simp at hap
  | cons a rest ih =>
    intro hap hf
    simp only [sweepApps]
    rcases List.mem_cons.mp hap with h1 | h1
    · subst h1
      exact List.mem_append_left _
        (processApp_records now users ap rv he hrv hp hf)
    · rcases processApp_record_or_survive now users a rv.dsaId hf
        with hrec | hsurv
      · exact List.mem_append_left _ hrec
      · exact List.mem_append_right _ (ih _ h1 hsurv)

theorem findUser_sweepApps (now : Nat) (j : String) :
    ∀ (users : List User) (apps : List Application) (u : User),
      findUser users j = some u →
      findUser (sweepApps now users apps).1 j = some u ∨
      findUser (sweepApps now users apps).1 j = some (unverifyUser u) := by
  intro users apps
  induction apps generalizing users with
  | nil => intro u h; exact Or.inl h
  | cons a rest ih =>
    intro u h
    simp only [sweepApps]
    rcases findUser_processApp now users a j u h with h1 | h1
    · exact ih _ _ h1
    · rcases ih _ _ h1 with h2 | h2
      · exact Or.inr h2
      · right
        rw [h2, unverifyUser_idem]

theorem sweepApps_of_stable (now : Nat) (users : List User)
    (apps : List Application)
    (h : ∀ ap ∈ apps, isExpired now ap = true →
      (∀ rv ∈ ap.dsaReviews, rv.status = "pending" →
        freezable users rv.dsaId = false) ∧
      (ap.dsaReviews.all (fun r => r.status == "pending")) = false) :
    sweepApps now users apps = (users, apps, [], []) := by
  induction apps with
  | nil => rfl
  | cons a rest ih =>
    have hp : processApp now users a = (users, a, [], false) := by
      by_cases he : isExpired now a
      · obtain ⟨hfz, hall⟩ := h a (by simp) he
        have hfp : freezePending users a.dsaReviews = (users, []) := by
          unfold freezePending
          apply freezeMany_of_none
          intro i hi
          obtain ⟨rv, hrvf, hrid⟩ := List.mem_map.mp hi
          obtain ⟨hrv, hpend⟩ := List.mem_filter.mp hrvf
          subst hrid
          exact hfz rv hrv (by simpa using hpend)
        unfold processApp
        rw [if_pos he, hfp, hall]
        simp
      · unfold processApp
        rw [if_neg he]
    have hrest : sweepApps now users rest = (users, rest, [], []) :=
      ih (fun ap hap => h ap (by simp [hap]))
    simp [sweepApps, hp, hrest]

/-! ## Main sweeper theorems -/

/-- Claim C8 (confirmed): running the sweep a second time with the same
`now` on the state produced by the first run changes nothing: it reports no
additional unverified reviewers and no additional resets, and leaves the
state exactly as the first run left it. -/
theorem sweep_idempotent (now : Nat) (st : St) :
    sweep now (sweep now st).1 = ((sweep now st).1, [], []) := by
  have hstable : sweepApps now (sweep now st).1.users (sweep now st).1.apps
      = ((sweep now st).1.users, (sweep now st).1.apps, [], []) := by
    apply sweepApps_of_stable
    intro ap hap he
    have happs : (sweep now st).1.apps
        = (sweepApps now st.users st.apps).2.1 := rfl
    rw [happs, sweepApps_apps] at hap
    obtain ⟨ap0, hap0, rfl⟩ := List.mem_map.mp hap
    by_cases hcond : (isExpired now ap0 &&
        ap0.dsaReviews.all (fun r => r.status == "pending")) = true
    · exfalso
      have hps : appStep now ap0 = { ap0 with status := "pending" } := by
        unfold appStep
        rw [if_pos hcond]
      rw [hps] at he
      unfold isExpired at he
      simp at he
    · have heq : appStep now ap0 = ap0 := by
        unfold appStep
        rw [if_neg hcond]
      rw [heq] at he ⊢
      have hall : (ap0.dsaReviews.all (fun r => r.status == "pending"))
          = false := by
        cases hb : ap0.dsaReviews.all (fun r => r.status == "pending") with
        | false => rfl
        | true => exact absurd (by rw [he, hb]; rfl) hcond
      refine ⟨?_, hall⟩
      intro rv hrv hpend
      have husers : (sweep now st).1.users
          = (sweepApps now st.users st.apps).1 := rfl
      rw [husers]
      exact freezable_sweepApps_post now ap0 rv he hrv hpend
        st.users st.apps hap0
  simp only [sweep] at hstable ⊢
  simp only [hstable]

/-- Claim C2 (amended, theorem): when the sweeper processes an application
selected by its query, every assigned reviewer whose decision is still
pending and who is currently active and verified ends with verification
cleared (`isVerified = false`, `verifiedAt`/`verifiedBy` cleared) and is
reported in the sweep's `unverifiedDSAs` list, while `isActive` and
`missedDeadlines` are left unchanged — the reviewer is not deactivated and
no missed-deadline counter is incremented. -/
theorem sweep_unverifies_pending_reviewer (now : Nat) (st : St)
    (ap : Application) (rv : DSAReview) (u : User)
    (hap : ap ∈ st.apps) (he : isExpired now ap = true)
    (hrv : rv ∈ ap.dsaReviews) (hp : rv.status = "pending")
    (hu : findUser st.users rv.dsaId = some u)
    (hver : u.isVerified = true) (hact : u.isActive = true) :
    rv.dsaId ∈ (sweep now st).2.1 ∧
    findUser (sweep now st).1.users rv.dsaId = some (unverifyUser u) ∧
    (unverifyUser u).isVerified = false ∧
    (unverifyUser u).verifiedAt = none ∧
    (unverifyUser u).verifiedBy = none ∧
    (unverifyUser u).isActive = u.isActive ∧
    (unverifyUser u).missedDeadlines = u.missedDeadlines := by
  have hfz : freezable st.users rv.dsaId = true := by
    unfold freezable
    rw [hu]
    simp [hver, hact]
  constructor
  · have hfroz : (sweep now st).2.1
        = (sweepApps now st.users st.apps).2.2.1 := rfl
    rw [hfroz]
    exact sweepApps_records now ap rv he hrv hp st.users st.apps hap hfz
  · have hpost := freezable_sweepApps_post now ap rv he hrv hp
      st.users st.apps hap
    have husers : (sweep now st).1.users
        = (sweepApps now st.users st.apps).1 := rfl
    rw [husers]
    rcases findUser_sweepApps now rv.dsaId st.users st.apps u hu with h1 | h1
    · exfalso
      unfold freezable at hpost
      rw [h1] at hpost
      simp [hver, hact] at hpost
    · exact ⟨h1, rfl, rfl, rfl, rfl, rfl⟩

/-- Claim C2 (witness): in the concrete expired state, reviewer `d1` is
reported, unverified, and otherwise untouched. -/
theorem sweep_unverifies_witness :
    ("d1" : String) ∈ (sweep 200 stExp).2.1 ∧
    findUser (sweep 200 stExp).1.users "d1" = some (unverifyUser dsaA) ∧
    (unverifyUser dsaA).isVerified = false ∧
    (unverifyUser dsaA).verifiedAt = none ∧
    (unverifyUser dsaA).verifiedBy = none ∧
    (unverifyUser dsaA).isActive = dsaA.isActive ∧
    (unverifyUser dsaA).missedDeadlines = dsaA.missedDeadlines :=
  sweep_unverifies_pending_reviewer 200 stExp appExp ⟨"d1", "pending", []⟩
    dsaA (by decide) (by rfl) (by decide) rfl (by rfl) rfl rfl

/-- Claim C7 (amended, theorem): the sweep's only application-level effect
is `appStep`: an expired application whose decisions are all still pending
has exactly its status reset to `pending` — `assignedDSAs`, `dsaReviews`
and `reviewDeadline` are left in place (record update of the status field
only) — and an expired application with at least one non-pending decision
is left entirely unchanged (still `under_review`). -/
theorem sweep_reset_frame (now : Nat) (st : St) :
    (sweep now st).1.apps = st.apps.map (appStep now) ∧
    ∀ ap, isExpired now ap = true →
      ((ap.dsaReviews.all (fun r => r.status == "pending")) = true →
        appStep now ap = { ap with status := "pending" }) ∧
      ((ap.dsaReviews.all (fun r => r.status == "pending")) = false →
        appStep now ap = ap) := by
  constructor
  · have happs : (sweep now st).1.apps
        = (sweepApps now st.users st.apps).2.1 := rfl
    rw [happs, sweepApps_apps]
  · intro ap he
    constructor
    · intro hall
      unfold appStep
      rw [if_pos (by rw [he, hall]; rfl)]
    · intro hall
      unfold appStep
      rw [if_neg (by rw [he, hall]; simp)]

/-- Claim C7 (witness): the concrete expired all-pending application is
reset to `pending` by a status-only record update. -/
theorem sweep_reset_frame_witness :
    (sweep 200 stExp).1.apps = stExp.apps.map (appStep 200) ∧
    appStep 200 appExp = { appExp with status := "pending" } :=
  ⟨(sweep_reset_frame 200 stExp).1,
   ((sweep_reset_frame 200 stExp).2 appExp (by rfl)).1 (by rfl)⟩

/-! ## Assignment theorems -/

/-- Claim C3 (amended, theorem): the assignment route fails with its
no-active-DSAs error exactly when zero active+verified reviewers exist
system-wide — in that case the state (hence the pending application, with no
reviewers attached) is unchanged — and succeeds whenever at least one
active+verified reviewer exists, in particular with exactly one. -/
theorem assign_fails_iff_no_active_dsas (perm : List User) (r now : Nat)
    (st : St) :
    ((assignDsasRoute perm r now st).1 = .error .noActiveDsas ↔
      activeVerifiedDsas st.users = []) ∧
    (activeVerifiedDsas st.users = [] →
      assignDsasRoute perm r now st = (.error .noActiveDsas, st)) ∧
    (activeVerifiedDsas st.users ≠ [] →
      ∃ aps, (assignDsasRoute perm r now st).1 = .ok aps) := by
  unfold assignDsasRoute
  by_cases h : (activeVerifiedDsas st.users).length = 0
  · have he : activeVerifiedDsas st.users = [] := List.length_eq_zero.mp h
    simp [h, he]
  · have hne : activeVerifiedDsas st.users ≠ [] := by
      intro hcon
      exact h (by rw [hcon]; rfl)
    simp [h, hne]

/-- Claim C3 (witness): with one active reviewer the route returns a
success. -/
theorem assign_fails_iff_witness :
    ∃ aps, (assignDsasRoute (activeVerifiedDsas stOne.users) 0 1000
      stOne).1 = .ok aps :=
  (assign_fails_iff_no_active_dsas (activeVerifiedDsas stOne.users) 0 1000
    stOne).2.2 (by decide)

/-- Claim C4 (confirmed): whenever the assignment route succeeds (the pool
of active+verified reviewers is nonempty and `perm` is its shuffle), every
pending unassigned application is assigned and afterwards satisfies the
postconditions `assignedOk`: threshold `min 2 selectedCount` with
`1 ≤ threshold ≤ len(assignedReviewers)`, deadline 72 hours after `now`, one
pending decision slot per selected reviewer in selection order, and status
`under_review`. -/
theorem assign_success_postconditions (perm : List User) (r now : Nat)
    (st : St) (app : Application)
    (hperm : (activeVerifiedDsas st.users).Perm perm)
    (hne : activeVerifiedDsas st.users ≠ [])
    (happ : app ∈ st.apps) (hpend : isPendingUnassigned app = true) :
    ∃ aps, (assignDsasRoute perm r now st).1 = .ok aps ∧
      assignApplication (activeVerifiedDsas st.users) perm r now app ∈ aps ∧
      assignedOk now
        (assignApplication (activeVerifiedDsas st.users) perm r now app) := by
  have hlen0 : (activeVerifiedDsas st.users).length ≠ 0 := by
    simpa [List.length_eq_zero] using hne
  refine ⟨st.apps.map (fun a =>
      if isPendingUnassigned a then
        assignApplication (activeVerifiedDsas st.users) perm r now a
      else a), ?_, ?_, ?_⟩
  · unfold assignDsasRoute
    rw [if_neg hlen0]
  · refine List.mem_map.mpr ⟨app, happ, ?_⟩
    rw [if_pos hpend]
  · have hL : 1 ≤ (activeVerifiedDsas st.users).length :=
      Nat.one_le_iff_ne_zero.mpr hlen0
    have hpermlen : perm.length = (activeVerifiedDsas st.users).length :=
      hperm.length_eq.symm
    have hsel : ((perm.take
        (numDSAsToAssign r (activeVerifiedDsas st.users).length)).map
          (fun u : User => u.id)).length
        = numDSAsToAssign r (activeVerifiedDsas st.users).length := by
      rw [List.length_map, List.length_take, hpermlen]
      exact min_eq_left (min_le_right _ _)
    have h1n : 1 ≤ numDSAsToAssign r (activeVerifiedDsas st.users).length :=
      le_min (by omega) hL
    unfold assignedOk assignApplication
    refine ⟨rfl, rfl, ?_, ?_, rfl, rfl, rfl⟩
    · show 1 ≤ min 2 ((perm.take
        (numDSAsToAssign r (activeVerifiedDsas st.users).length)).map
          (fun u : User => u.id)).length
      rw [hsel]
      exact le_min (by omega) h1n
    · show min 2 ((perm.take
        (numDSAsToAssign r (activeVerifiedDsas st.users).length)).map
          (fun u : User => u.id)).length ≤ _
      exact min_le_right _ _

/-- Claim C4 (witness): the concrete single-reviewer assignment satisfies
the postconditions. -/
theorem assign_success_witness :
    ∃ aps, (assignDsasRoute (activeVerifiedDsas stOne.users) 0 1000
        stOne).1 = .ok aps ∧
      assignApplication (activeVerifiedDsas stOne.users)
        (activeVerifiedDsas stOne.users) 0 1000 appPend ∈ aps ∧
      assignedOk 1000 (assignApplication (activeVerifiedDsas stOne.users)
        (activeVerifiedDsas stOne.users) 0 1000 appPend) :=
  assign_success_postconditions (activeVerifiedDsas stOne.users) 0 1000
    stOne appPend (List.Perm.refl _) (by decide) (by decide) (by rfl)

/-! ## Reactivation-request theorem -/

/-- Claim C9 (confirmed): for a DSA session, the reactivation-request route
behaves clause by clause as claimed — validation failure (reason under 10 or
clarification under 20 characters) mutates nothing; an active account fails
`AlreadyActive` with no mutation; an existing pending request fails
`DuplicatePending` with no mutation; otherwise a reactivation request with
status `pending` is created on the reviewer's document. -/
theorem reactivation_request_correct (s : Session) (rsn clar : String)
    (now : Nat) (users : List User) (hrole : s.role = "dsa") :
    reactRequestSpec s rsn clar now users := by
  unfold reactRequestSpec reactivationRequestRoute
  simp only [Option.getD_some, isFalsy]
  rw [if_neg (by simp [hrole])]
  constructor
  · intro hshort
    by_cases hz : (rsn == "" || clar == "") = true
    · rw [if_pos hz]
      exact ⟨rfl, Or.inl rfl⟩
    · rw [if_neg hz, if_pos hshort]
      exact ⟨rfl, Or.inr rfl⟩
  · intro dsa hlen hfind hdrole
    have h10 : ¬ rsn.length < 10 := fun h => hlen (Or.inl h)
    have h20 : ¬ clar.length < 20 := fun h => hlen (Or.inr h)
    have hrne : rsn ≠ "" := by
      intro h
      exact h10 (by simp [h])
    have hcne : clar ≠ "" := by
      intro h
      exact h20 (by simp [h])
    rw [if_neg (by simp [hrne, hcne]), if_neg hlen]
    simp only [hfind]
    rw [if_neg (by simp [hdrole])]
    constructor
    · intro hact
      rw [if_pos hact]
    · intro hinact
      rw [if_neg (by simp [hinact])]
      constructor
      · intro rq hrq hpend
        rw [if_pos (by rw [hrq]; simp [hpend])]
      · intro hnp
        have hcond : (match dsa.reactivationRequest with
            | some rq => rq.status == "pending"
            | none => false) = false := by
          cases hropt : dsa.reactivationRequest with
          | none => rfl
          | some rq =>
            rw [hropt] at hnp
            simpa using hnp
        rw [if_neg (by simp [hcond])]
        exact ⟨_, rfl, rfl, rfl⟩

/-- Claim C9 (witness): a frozen DSA with no prior request, a 15-character
reason and a 39-character clarification. -/
theorem reactivation_request_witness :
    reactRequestSpec
      { userId := "d9", role := "dsa" } "too busy lately"
      "I underestimated my workload this month" 100
      [{ id := "d9", role := "dsa", isActive := false }] :=
  reactivation_request_correct { userId := "d9", role := "dsa" }
    "too busy lately" "I underestimated my workload this month" 100
    [{ id := "d9", role := "dsa", isActive := false }] rfl

/-! ## Status-route characterization -/

theorem applyStatusUpdate_status (app : Application) (entry : ReviewEntry)
    (stv : String) (comments reviewNotes : Option String) (userId : String)
    (now : Nat) :
    (applyStatusUpdate app entry stv comments reviewNotes userId now).status
      = stv := by
  unfold applyStatusUpdate
  split_ifs <;> rfl

/-- Claim C10 (confirmed): the status route succeeds exactly under
`putSucceeds` — an authenticated DSA/admin session, a present and valid
status value, an unfrozen account for a DSA caller, and an existing
application; no assignment, application-state, threshold or deadline
precondition appears — and on success the application's status is set to the
requested value. -/
theorem putStatus_no_preconditions (sessOpt : Option Session) (appId : String)
    (statusOpt comments reviewNotes : Option String) (now : Nat) (st : St) :
    ((∃ res, (putStatus sessOpt appId statusOpt comments reviewNotes
        now st).1 = .ok res) ↔
      putSucceeds sessOpt appId statusOpt st) ∧
    (∀ app' entry,
      (putStatus sessOpt appId statusOpt comments reviewNotes now st).1
        = .ok (app', entry) →
      app'.status = jsOrStr statusOpt "") := by
  cases sessOpt with
  | none =>
    refine ⟨⟨?_, ?_⟩, ?_⟩
    · rintro ⟨res, hres⟩
      simp [putStatus] at hres
    · rintro ⟨s, hs, _⟩
      exact absurd hs (by simp)
    · intro app' entry h
      simp [putStatus] at h
  | some s =>
    by_cases h1 : s.role ∈ ["dsa", "admin"]
    case neg =>
      have hput : (putStatus (some s) appId statusOpt comments reviewNotes
          now st).1 = .error .forbidden := by
        simp [putStatus, h1]
      refine ⟨⟨?_, ?_⟩, ?_⟩
      · rintro ⟨res, hres⟩
        rw [hput] at hres
        exact absurd hres (by simp)
      · rintro ⟨s', hs', hrole', _⟩
        obtain rfl : s = s' := by simpa using hs'
        exact (h1 hrole').elim
      · intro app' entry h
        rw [hput] at h
        exact absurd h (by simp)
    case pos =>
      by_cases h2 : isFalsy statusOpt = true
      case pos =>
        have hput : (putStatus (some s) appId statusOpt comments reviewNotes
            now st).1 = .error .statusRequired := by
          simp [putStatus, h1, h2]
        refine ⟨⟨?_, ?_⟩, ?_⟩
        · rintro ⟨res, hres⟩
          rw [hput] at hres
          exact absurd hres (by simp)
        · rintro ⟨s', hs', _, hfalsy, _⟩
          rw [h2] at hfalsy
          exact absurd hfalsy (by simp)
        · intro app' entry h
          rw [hput] at h
          exact absurd h (by simp)
      case neg =>
        by_cases h3 : jsOrStr statusOpt "" ∈ validStatuses
        case neg =>
          have hput : (putStatus (some s) appId statusOpt comments
              reviewNotes now st).1 = .error .invalidStatus := by
            simp [putStatus, h1, h2, h3]
          refine ⟨⟨?_, ?_⟩, ?_⟩
          · rintro ⟨res, hres⟩
            rw [hput] at hres
            exact absurd hres (by simp)
          · rintro ⟨s', hs', _, _, hvalid, _⟩
            exact (h3 hvalid).elim
          · intro app' entry h
            rw [hput] at h
            exact absurd h (by simp)
        case pos =>
          by_cases h4 : (s.role == "dsa" &&
              (match findUser st.users s.userId with
               | none => true
               | some u => ! u.isActive)) = true
          case pos =>
            have hput : (putStatus (some s) appId statusOpt comments
                reviewNotes now st).1 = .error .accountFrozen := by
              simp only [putStatus]
              rw [if_neg (not_not_intro h1), if_neg (by simp [h2]),
                if_neg (by simpa using h3), if_pos h4]
            refine ⟨⟨?_, ?_⟩, ?_⟩
            · rintro ⟨res, hres⟩
              rw [hput] at hres
              exact absurd hres (by simp)
            · rintro ⟨s', hs', _, _, _, hdsa, _⟩
              obtain rfl : s = s' := by simpa using hs'
              rw [Bool.and_eq_true] at h4
              obtain ⟨hrole, hfrozen⟩ := h4
              have hroledsa : s.role = "dsa" := by
                simpa using hrole
              obtain ⟨u, hu, hua⟩ := hdsa hroledsa
              rw [hu] at hfrozen
              have hfr : (! u.isActive) = true := hfrozen
              rw [hua] at hfr
              exact absurd hfr (by simp)
            · intro app' entry h
              rw [hput] at h
              exact absurd h (by simp)
          case neg =>
            cases h5 : findApp st.apps appId with
            | none =>
              have hput : (putStatus (some s) appId statusOpt comments
                  reviewNotes now st).1 = .error .notFound := by
                simp only [putStatus]
                rw [if_neg (not_not_intro h1), if_neg (by simp [h2]),
                  if_neg (by simpa using h3), if_neg h4]
                simp only [h5]
              refine ⟨⟨?_, ?_⟩, ?_⟩
              · rintro ⟨res, hres⟩
                rw [hput] at hres
                exact absurd hres (by simp)
              · rintro ⟨s', hs', _, _, _, _, app, happ⟩
                rw [h5] at happ
                exact absurd happ (by simp)
              · intro app' entry h
                rw [hput] at h
                exact absurd h (by simp)
            | some app =>
              have hput : ∃ entry0,
                  (putStatus (some s) appId statusOpt comments reviewNotes
                    now st).1
                  = .ok (applyStatusUpdate app entry0 (jsOrStr statusOpt "")
                      comments reviewNotes s.userId now, entry0) := by
                refine ⟨{ dsaId := s.userId
                          dsaName := s.firstName ++ " " ++ s.lastName
                          status := jsOrStr statusOpt ""
                          comments := jsOrStr comments ""
                          reviewNotes := jsOrStr reviewNotes ""
                          reviewedAt := now
                          reviewerRole := s.role }, ?_⟩
                simp only [putStatus]
                rw [if_neg (not_not_intro h1), if_neg (by simp [h2]),
                  if_neg (by simpa using h3), if_neg h4]
                simp only [h5]
              obtain ⟨entry0, hok⟩ := hput
              refine ⟨⟨?_, ?_⟩, ?_⟩
              · intro _
                refine ⟨s, rfl, h1, by simpa using h2, h3, ?_, ⟨app, h5⟩⟩
                intro hroledsa
                cases hu : findUser st.users s.userId with
                | none =>
                  exfalso
                  apply h4
                  rw [Bool.and_eq_true]
                  refine ⟨by simpa using hroledsa, ?_⟩
                  rw [hu]
                | some u =>
                  refine ⟨u, rfl, ?_⟩
                  cases hua : u.isActive with
                  | true => rfl
                  | false =>
                    exfalso
                    apply h4
                    rw [Bool.and_eq_true]
                    refine ⟨by simpa using hroledsa, ?_⟩
                    rw [hu]
                    simpa using hua
              · intro _
                exact ⟨_, hok⟩
              · intro app' entry h
                rw [hok] at h
                have hpair : (applyStatusUpdate app entry0
                    (jsOrStr statusOpt "") comments reviewNotes s.userId now,
                    entry0) = (app', entry) := by
                  simpa using h
                have happ' : applyStatusUpdate app entry0
                    (jsOrStr statusOpt "") comments reviewNotes s.userId now
                    = app' := congrArg Prod.fst hpair
                rw [← happ']
                exact applyStatusUpdate_status app entry0 _ comments
                  reviewNotes s.userId now

/-- Claim C10 (witness): the characterization applied at the concrete
under-review fixture; the success condition holds there. -/
theorem putStatus_no_preconditions_witness :
    putSucceeds (some sessA) "a1" (some "approved") stUR :=
  (putStatus_no_preconditions (some sessA) "a1" (some "approved") none none
    500 stUR).1.mp ⟨_, by rfl⟩

end Loan
